import Mathlib

/-!
Shallow embedding of the dlicv backend registry and dispatch layer.

Source files embedded here:
* `src/dlicv/backend/base/backend_manager.py` — `BaseBackendManager.check_env`,
  `BackendManagerRegistry.register`, `BackendManagerRegistry.find`,
  `get_backend_manager`;
* `src/dlcv/infer/backend/tensorrt/backend_manager.py` — `TensorRTManager`;
* `src/dlicv/infer/backend/ascend/backend_manager.py` — `AscendManager`.

Python exceptions are modelled with `Except PyErr`; `try/except Exception`
becomes `tryExcept`.  Python's mutable process-wide registry (the
`_module_dict` dict and the `aenum`-extensible `Backend` enum) is modelled as
explicit state (`RegistryState`, threaded through `register` and the
import-triggered population in `find`).  Python dicts are modelled as
association lists whose key uniqueness (`keysNodup`) is a structural property
of real dicts and therefore appears as a hypothesis where needed; likewise an
enum cannot carry two members of the same name.  Stdlib imports that are
always available (`os.path`, `importlib`, `pkg_resources`) are modelled as
succeeding; the probes they perform are fields of an environment record.
-/

/-- Python exceptions relevant to the embedded code.  All constructors are
subclasses of `Exception`, so `except Exception` (`tryExcept`) catches every
one of them. -/
inductive PyErr where
  | notImplementedError (msg : String)
  | fileNotFoundError (msg : String)
  | moduleNotFoundError (msg : String)
  | indexError
  | otherError (msg : String)
deriving DecidableEq, Repr

/-- Models a Python `try: body except Exception: handler` block. -/
def tryExcept {α : Type} (body : Except PyErr α) (handler : PyErr → Except PyErr α) :
    Except PyErr α :=
  match body with
  | Except.ok a => Except.ok a
  | Except.error e => handler e

/-- A backend implementation class as seen by `BaseBackendManager.check_env`:
its `backend_name` class attribute and the outcomes of calling the
classmethods `is_available()` and `get_version()` (either a value or a raised
exception). -/
structure Impl where
  backend_name : String
  availResult : Except PyErr Bool
  versionResult : Except PyErr String

/-- The f-string shape `f'{backend_name}:\t{version}'` used by `check_env`. -/
def summaryLine (name version : String) : String :=
  name ++ ":\t" ++ version

/-- BaseBackendManager.check_env (backend_manager.py lines 53-74): inside a
`try/except Exception`, call `is_available()`; if available, call
`get_version()` catching only `NotImplementedError` as `'Unknown'`, else use
`'None'`; format `f'{backend_name}:\t{version}'`; on any exception the line is
`f'{backend_name}:\tCheckFailed'`.  The call `log_callback(info)` sits outside
the `try`, then `info` is returned. -/
def check_env (cls : Impl) (log_callback : String → Except PyErr Unit) :
    Except PyErr String := do
  let info ← tryExcept
    (do
      let available ← cls.availResult
      let backend_version ←
        if available then
          tryExcept cls.versionResult (fun e =>
            match e with
            | PyErr.notImplementedError _ => Except.ok "Unknown"
            | e2 => Except.error e2)
        else pure "None"
      pure (summaryLine cls.backend_name backend_version))
    (fun _ => Except.ok (summaryLine cls.backend_name "CheckFailed"))
  let _ ← log_callback info
  pure info

/-- The default `log_callback = lambda _: _` of `check_env`: it raises nothing
(its return value is discarded by the caller). -/
def noopLog : String → Except PyErr Unit := fun _ => Except.ok ()

/-- The summary line of `check_env` as the specification describes it, by case
analysis on the probe outcomes.  This definition follows the spec's words; the
theorems below compare it with the embedded code `check_env`. -/
def check_env_spec_line (cls : Impl) : String :=
  match cls.availResult with
  | Except.ok true =>
    match cls.versionResult with
    | Except.ok v => summaryLine cls.backend_name v
    | Except.error (PyErr.notImplementedError _) => summaryLine cls.backend_name "Unknown"
    | Except.error _ => summaryLine cls.backend_name "CheckFailed"
  | Except.ok false => summaryLine cls.backend_name "None"
  | Except.error _ => summaryLine cls.backend_name "CheckFailed"

/-- `check_env` computes exactly the spec's summary line, hands it to the
callback, and returns it (helper shared by several claims). -/
lemma check_env_run (cls : Impl) (log : String → Except PyErr Unit) :
    check_env cls log =
      Except.bind (log (check_env_spec_line cls))
        (fun _ => Except.ok (check_env_spec_line cls)) := by
  unfold check_env check_env_spec_line tryExcept
  rcases cls with ⟨n, a, v⟩
  rcases a with e | b
  · rfl
  · rcases b with _ | _
    · rfl
    · rcases v with e | s
      · rcases e <;> rfl
      · rfl

/-- C2: for every backend implementation with a `backend_name`, `check_env()`
(with its default no-op callback) never raises — whatever `is_available()` and
`get_version()` do, including raising — and returns a string of the shape
`"<backend_name>:\t<value>"`. -/
theorem check_env_never_raises (cls : Impl) :
    ∃ v : String, check_env cls noopLog =
      Except.ok (cls.backend_name ++ ":\t" ++ v) := by
  rw [check_env_run]
  unfold check_env_spec_line
  rcases cls with ⟨n, a, vr⟩
  rcases a with e | b
  · exact ⟨"CheckFailed", rfl⟩
  · rcases b with _ | _
    · exact ⟨"None", rfl⟩
    · rcases vr with e | s
      · rcases e with m | m | m | m | m
        · exact ⟨"Unknown", rfl⟩
        · exact ⟨"CheckFailed", rfl⟩
        · exact ⟨"CheckFailed", rfl⟩
        · exact ⟨"CheckFailed", rfl⟩
        · exact ⟨"CheckFailed", rfl⟩
      · exact ⟨s, rfl⟩

/-- C3: `check_env` computes the line by the spec's case analysis — available
with a version `v` gives `"{name}:\t{v}"`, a `NotImplementedError` from
`get_version` gives `'Unknown'`, unavailable gives `'None'`, any other
exception gives `'CheckFailed'` — and that line is both passed to
`log_callback` and returned. -/
theorem check_env_correct (cls : Impl) (log : String → Except PyErr Unit) :
    check_env cls log =
      Except.bind (log (check_env_spec_line cls))
        (fun _ => Except.ok (check_env_spec_line cls)) :=
  check_env_run cls log

/-- C10: the callback runs outside the exception guard of `check_env`: a
callback that raises on the formatted line makes `check_env` itself raise. -/
theorem check_env_callback_raises (cls : Impl) (log : String → Except PyErr Unit)
    (e : PyErr) (h : log (check_env_spec_line cls) = Except.error e) :
    check_env cls log = Except.error e := by
  rw [check_env_run, h]
  rfl

/-- Witness for C10 at a concrete implementation and a raising callback. -/
theorem check_env_callback_raises_witness :
    check_env (Impl.mk "dummy" (Except.ok true) (Except.ok "1.0"))
      (fun _ => Except.error (PyErr.otherError "log boom")) =
      Except.error (PyErr.otherError "log boom") :=
  check_env_callback_raises (Impl.mk "dummy" (Except.ok true) (Except.ok "1.0"))
    (fun _ => Except.error (PyErr.otherError "log boom"))
    (PyErr.otherError "log boom") rfl

/-- Association-list lookup, modelling `dict.get(k, None)` / `hasattr` on a
keyed collection. -/
def alookup {α : Type} (l : List (String × α)) (k : String) : Option α :=
  match l with
  | [] => none
  | p :: rest => if p.1 = k then some p.2 else alookup rest k

/-- Number of entries of an association list holding key `k`. -/
def countKey {α : Type} (l : List (String × α)) (k : String) : Nat :=
  (l.filter (fun p => p.1 = k)).length

/-- Key uniqueness — a structural property of every Python `dict` (and of the
member names of an enum), which the association-list model states explicitly. -/
def keysNodup {α : Type} (l : List (String × α)) : Prop :=
  (l.map Prod.fst).Nodup

/-- Python `d[k] = v` on a dict: replace the value in place if the key is
present, otherwise add the pair. -/
def dictInsert {α : Type} (l : List (String × α)) (k : String) (v : α) :
    List (String × α) :=
  if (alookup l k).isSome then
    l.map (fun p => if p.1 = k then (k, v) else p)
  else
    l ++ [(k, v)]

/-- Python `str.upper()` restricted to the ASCII names used here, written as
a structural character map so that concrete instances evaluate. -/
def pyUpper (s : String) : String := String.mk (s.data.map Char.toUpper)

/-- Python `cls.backend_name = name`: the class object with its
`backend_name` attribute set (reference semantics make the stored and the
returned class the same object, so the model stamps before storing). -/
def stampName (cls : Impl) (name : String) : Impl :=
  Impl.mk name cls.availResult cls.versionResult

/-- The process-wide mutable state touched by `BackendManagerRegistry`:
`_module_dict` (backend name to implementation class) and the members of the
`aenum`-extensible `Backend` enum, as pairs (member name, member value). -/
structure RegistryState where
  module_dict : List (String × Impl)
  enum_members : List (String × String)

/-- BackendManagerRegistry.register (backend_manager.py lines 83-116) applied
to a class, i.e. the body of `wrap_manager`: default `enum_name` to
`name.upper()`; `extend_enum(Backend, enum_name, name)` unless
`hasattr(Backend, enum_name)`; log (never raise) if `name` is already a key;
`_module_dict[name] = cls`; `cls.backend_name = name`; return `cls`.  Logging
has no further effect and is not modelled. -/
def register (st : RegistryState) (name : String) (enum_name : Option String)
    (cls : Impl) : RegistryState × Impl :=
  let ename := enum_name.getD (pyUpper name)
  let enum2 :=
    if (alookup st.enum_members ename).isSome then st.enum_members
    else st.enum_members ++ [(ename, name)]
  let cls2 := stampName cls name
  (RegistryState.mk (dictInsert st.module_dict name cls2) enum2, cls2)

/-- One top-level `@BACKEND_MANAGERS.register(name, enum_name)` decoration in
a backend module: the arguments of the `register` call and the decorated
class. -/
structure RegCall where
  rname : String
  renum : Option String
  rimpl : Impl

/-- The importable modules of the Python environment: module name mapped to
the registration decorators its import executes at top level. -/
structure ModuleEnv where
  modules : List (String × List RegCall)

/-- Process state threaded through `find`: the registry plus the set of
already-imported modules (Python caches imports, so a module's registration
side effects run once). -/
structure SysState where
  registry : RegistryState
  imported : List String

/-- Run the top-level registrations of a module, in order. -/
def applyRegs (r : RegistryState) (regs : List RegCall) : RegistryState :=
  regs.foldl (fun acc c => (register acc c.rname c.renum c.rimpl).1) r

/-- Models `importlib.import_module(mod)`: cached modules are not re-run; a
module absent from the environment raises `ModuleNotFoundError`; otherwise the
module's top-level registrations execute. -/
def moduleImport (env : ModuleEnv) (st : SysState) (mod : String) :
    Except PyErr SysState :=
  if mod ∈ st.imported then Except.ok st
  else
    match alookup env.modules mod with
    | none => Except.error (PyErr.moduleNotFoundError mod)
    | some regs =>
        Except.ok (SysState.mk (applyRegs st.registry regs) (st.imported ++ [mod]))

/-- BackendManagerRegistry.find (backend_manager.py lines 118-127):
`importlib.import_module('dlicv.backend.' + name)` — with no exception
handler — then `self._module_dict.get(name, None)`. -/
def find (env : ModuleEnv) (st : SysState) (name : String) :
    Except PyErr (SysState × Option Impl) :=
  match moduleImport env st ("dlicv.backend." ++ name) with
  | Except.error e => Except.error e
  | Except.ok st2 => Except.ok (st2, alookup st2.registry.module_dict name)

/-- The argument of `get_backend_manager`: a raw string or an `Enum` instance
(whose `.value` is the backend name). -/
inductive PyName where
  | str (s : String)
  | enumMember (member : String) (value : String)

/-- get_backend_manager (backend_manager.py lines 133-143): normalize an enum
value to its underlying string, then delegate to `BACKEND_MANAGERS.find`. -/
def get_backend_manager (env : ModuleEnv) (st : SysState) (n : PyName) :
    Except PyErr (SysState × Option Impl) :=
  match n with
  | PyName.str s => find env st s
  | PyName.enumMember _ v => find env st v

/-- The claimed registry invariant: every key of `_module_dict` has a
`Backend` enum member whose value is that key. -/
def registryInvariant (st : RegistryState) : Prop :=
  ∀ k ∈ st.module_dict.map Prod.fst, k ∈ st.enum_members.map Prod.snd

/-- Every implementation stored in the registry carries the key it is stored
under as its `backend_name` (what `register` stamps). -/
def stamped (st : RegistryState) : Prop :=
  ∀ p ∈ st.module_dict, Impl.backend_name p.2 = p.1

lemma alookup_eq_none {α : Type} (l : List (String × α)) (k : String) :
    alookup l k = none ↔ k ∉ l.map Prod.fst := by
  induction l with
  | nil => simp [alookup]
  | cons p rest ih =>
    rcases p with ⟨a, b⟩
    by_cases h : a = k
    · subst h
      simp [alookup]
    · simp only [alookup, h, if_false, List.map_cons, List.mem_cons, ih]
      constructor
      · intro hn hc
        rcases hc with hc | hc
        · exact h hc.symm
        · exact hn hc
      · intro hn hc
        exact hn (Or.inr hc)

lemma alookup_mem {α : Type} (l : List (String × α)) (k : String) (v : α)
    (h : alookup l k = some v) : (k, v) ∈ l := by
  induction l with
  | nil => simp [alookup] at h
  | cons p rest ih =>
    rcases p with ⟨a, b⟩
    by_cases hp : a = k
    · subst hp
      simp [alookup] at h
      subst h
      exact List.mem_cons_self _ _
    · simp only [alookup, hp, if_false] at h
      exact List.mem_cons_of_mem _ (ih h)

lemma alookup_isSome {α : Type} (l : List (String × α)) (k : String) :
    (alookup l k).isSome = true ↔ k ∈ l.map Prod.fst := by
  rcases h : alookup l k with _ | v
  · simp [(alookup_eq_none l k).mp h]
  · simp only [Option.isSome_some, true_iff]
    exact List.mem_map_of_mem Prod.fst (alookup_mem l k v h)

lemma countKey_cons {α : Type} (p : String × α) (rest : List (String × α)) (k : String) :
    countKey (p :: rest) k = (if p.1 = k then 1 else 0) + countKey rest k := by
  unfold countKey
  rw [List.filter_cons]
  by_cases hk : p.1 = k
  · simp [hk, Nat.add_comm]
  · simp [hk]

lemma countKey_eq_zero {α : Type} (l : List (String × α)) (k : String)
    (h : k ∉ l.map Prod.fst) : countKey l k = 0 := by
  induction l with
  | nil => rfl
  | cons p rest ih =>
    simp only [List.map_cons, List.mem_cons] at h
    push_neg at h
    rw [countKey_cons, if_neg (fun he => h.1 he.symm), ih h.2]

lemma countKey_eq_one_of_nodup {α : Type} (l : List (String × α)) (k : String)
    (hn : keysNodup l) (hm : k ∈ l.map Prod.fst) : countKey l k = 1 := by
  induction l with
  | nil => simp at hm
  | cons p rest ih =>
    unfold keysNodup at hn
    rw [List.map_cons, List.nodup_cons] at hn
    rw [countKey_cons]
    by_cases hk : p.1 = k
    · rw [if_pos hk, countKey_eq_zero rest k (hk ▸ hn.1)]
    · rw [if_neg hk, Nat.zero_add]
      apply ih hn.2
      rw [List.map_cons, List.mem_cons] at hm
      rcases hm with hm | hm
      · exact absurd hm.symm hk
      · exact hm

lemma countKey_append {α : Type} (l l2 : List (String × α)) (k : String) :
    countKey (l ++ l2) k = countKey l k + countKey l2 k := by
  unfold countKey
  rw [List.filter_append, List.length_append]

lemma countKey_map_replace {α : Type} (l : List (String × α)) (k : String) (v : α) :
    countKey (l.map (fun p => if p.1 = k then (k, v) else p)) k = countKey l k := by
  induction l with
  | nil => rfl
  | cons p rest ih =>
    rw [List.map_cons, countKey_cons, countKey_cons, ih]
    by_cases hk : p.1 = k
    · simp [hk]
    · simp [hk]

lemma dictInsert_keys {α : Type} (l : List (String × α)) (k : String) (v : α) :
    (dictInsert l k v).map Prod.fst =
      if (alookup l k).isSome then l.map Prod.fst else l.map Prod.fst ++ [k] := by
  unfold dictInsert
  by_cases h : (alookup l k).isSome
  · rw [if_pos h, if_pos h, List.map_map]
    apply List.map_congr_left
    intro p hp
    by_cases hk : p.1 = k
    · simp [hk]
    · simp [hk]
  · rw [if_neg h, if_neg h]
    simp

lemma mem_keys_dictInsert {α : Type} (l : List (String × α)) (k k0 : String) (v : α)
    (h : k0 ∈ l.map Prod.fst) : k0 ∈ (dictInsert l k v).map Prod.fst := by
  rw [dictInsert_keys]
  by_cases hs : (alookup l k).isSome
  · rw [if_pos hs]
    exact h
  · rw [if_neg hs]
    exact List.mem_append_left _ h

lemma self_mem_keys_dictInsert {α : Type} (l : List (String × α)) (k : String) (v : α) :
    k ∈ (dictInsert l k v).map Prod.fst := by
  rw [dictInsert_keys]
  by_cases hs : (alookup l k).isSome
  · rw [if_pos hs]
    exact (alookup_isSome l k).mp hs
  · rw [if_neg hs]
    exact List.mem_append_right _ (List.mem_singleton_self k)

lemma mem_dictInsert {α : Type} (l : List (String × α)) (k : String) (v : α)
    (p : String × α) (h : p ∈ dictInsert l k v) : p ∈ l ∨ p = (k, v) := by
  unfold dictInsert at h
  by_cases hs : (alookup l k).isSome
  · rw [if_pos hs, List.mem_map] at h
    obtain ⟨q, hq, hqp⟩ := h
    by_cases hk : q.1 = k
    · rw [if_pos hk] at hqp
      right
      exact hqp.symm
    · rw [if_neg hk] at hqp
      left
      rw [← hqp]
      exact hq
  · rw [if_neg hs, List.mem_append, List.mem_singleton] at h
    exact h

lemma alookup_dictInsert_self {α : Type} (l : List (String × α)) (k : String) (v : α) :
    alookup (dictInsert l k v) k = some v := by
  unfold dictInsert
  by_cases hs : (alookup l k).isSome
  · rw [if_pos hs]
    rw [alookup_isSome] at hs
    induction l with
    | nil => simp at hs
    | cons p rest ih =>
      by_cases hk : p.1 = k
      · simp [alookup, hk]
      · rw [List.map_cons]
        simp only [alookup, hk, if_false, if_neg hk]
        apply ih
        rw [List.map_cons, List.mem_cons] at hs
        rcases hs with hs | hs
        · exact absurd hs.symm hk
        · exact hs
  · rw [if_neg hs]
    rw [alookup_isSome] at hs
    induction l with
    | nil => simp [alookup]
    | cons p rest ih =>
      by_cases hk : p.1 = k
      · exfalso
        apply hs
        rw [List.map_cons, List.mem_cons]
        exact Or.inl hk.symm
      · rw [List.cons_append]
        simp only [alookup, hk, if_false]
        apply ih
        intro hc
        apply hs
        rw [List.map_cons, List.mem_cons]
        exact Or.inr hc

lemma countKey_dictInsert {α : Type} (l : List (String × α)) (k : String) (v : α)
    (h : keysNodup l) : countKey (dictInsert l k v) k = 1 := by
  unfold dictInsert
  by_cases hs : (alookup l k).isSome
  · rw [if_pos hs, countKey_map_replace]
    exact countKey_eq_one_of_nodup l k h ((alookup_isSome l k).mp hs)
  · rw [if_neg hs, countKey_append,
      countKey_eq_zero l k ((alookup_eq_none l k).mp (Option.not_isSome_iff_eq_none.mp hs))]
    simp [countKey]

lemma keysNodup_dictInsert {α : Type} (l : List (String × α)) (k : String) (v : α)
    (h : keysNodup l) : keysNodup (dictInsert l k v) := by
  unfold keysNodup
  rw [dictInsert_keys]
  by_cases hs : (alookup l k).isSome
  · rw [if_pos hs]
    exact h
  · rw [if_neg hs, List.nodup_append]
    refine ⟨h, List.nodup_singleton k, ?_⟩
    intro a ha hb
    rw [List.mem_singleton] at hb
    subst hb
    exact (alookup_eq_none l a).mp (Option.not_isSome_iff_eq_none.mp hs) ha

instance {α : Type} (l : List (String × α)) : Decidable (keysNodup l) :=
  List.nodupDecidable (l.map Prod.fst)

instance (st : RegistryState) : Decidable (registryInvariant st) := by
  unfold registryInvariant
  exact List.decidableBAll _ _

instance (st : RegistryState) : Decidable (stamped st) := by
  unfold stamped
  exact List.decidableBAll _ _

lemma register_dict (st : RegistryState) (name : String) (en : Option String) (cls : Impl) :
    (register st name en cls).1.module_dict =
      dictInsert st.module_dict name (stampName cls name) := rfl

lemma register_enum (st : RegistryState) (name : String) (en : Option String) (cls : Impl) :
    (register st name en cls).1.enum_members =
      if (alookup st.enum_members (en.getD (pyUpper name))).isSome then st.enum_members
      else st.enum_members ++ [(en.getD (pyUpper name), name)] := rfl

lemma enum_countKey_le_one (st : RegistryState) (name : String) (en : Option String)
    (cls : Impl) (k : String) (h : countKey st.enum_members k ≤ 1) :
    countKey (register st name en cls).1.enum_members k ≤ 1 := by
  rw [register_enum]
  by_cases hs : (alookup st.enum_members (en.getD (pyUpper name))).isSome
  · rw [if_pos hs]
    exact h
  · rw [if_neg hs, countKey_append]
    by_cases hk : en.getD (pyUpper name) = k
    · subst hk
      rw [countKey_eq_zero _ _
        ((alookup_eq_none _ _).mp (Option.not_isSome_iff_eq_none.mp hs))]
      simp [countKey]
    · have hz : countKey [(en.getD (pyUpper name), name)] k = 0 := by
        simp [countKey, hk]
      rw [hz]
      simpa using h

lemma foldl_register_enum_le_one (st : RegistryState) (name : String)
    (impls : List Impl) (h : countKey st.enum_members (pyUpper name) ≤ 1) :
    countKey ((impls.foldl (fun s i => (register s name none i).1) st).enum_members)
      (pyUpper name) ≤ 1 := by
  induction impls generalizing st with
  | nil => exact h
  | cons i rest ih =>
    rw [List.foldl_cons]
    exact ih _ (enum_countKey_le_one st name none i _ h)

/-- C6: registering the same backend name twice raises nothing (`register` is
a total function by construction), leaves exactly one `_module_dict` mapping
for that name — the last-registered implementation, stamped with the name —
and the `Backend` enum holds at most one member for that name however many
times registration is repeated.  The `keysNodup`/`countKey` hypotheses state
the key uniqueness Python's dict and enum guarantee structurally. -/
theorem register_duplicate_tolerated (st : RegistryState) (name : String) (A B : Impl)
    (hdict : keysNodup st.module_dict)
    (henum : countKey st.enum_members (pyUpper name) ≤ 1) :
    alookup ((register ((register st name none A).1) name none B).1.module_dict) name =
        some (stampName B name) ∧
    countKey ((register ((register st name none A).1) name none B).1.module_dict) name = 1 ∧
    ∀ impls : List Impl,
      countKey ((impls.foldl (fun s i => (register s name none i).1) st).enum_members)
        (pyUpper name) ≤ 1 := by
  refine ⟨?_, ?_, ?_⟩
  · rw [register_dict]
    exact alookup_dictInsert_self _ _ _
  · rw [register_dict]
    apply countKey_dictInsert
    rw [register_dict]
    exact keysNodup_dictInsert _ _ _ hdict
  · intro impls
    exact foldl_register_enum_le_one st name impls henum

/-- Concrete implementation used by witnesses (its probe outcomes are
irrelevant to registration). -/
def dummyImpl : Impl := Impl.mk "" (Except.ok true) (Except.ok "1.0")

/-- Second concrete implementation, distinguishable from `dummyImpl`. -/
def dummyImpl2 : Impl := Impl.mk "" (Except.ok false) (Except.ok "2.0")

/-- Witness for C6 from the empty registry. -/
theorem register_duplicate_tolerated_witness :
    alookup ((register ((register (RegistryState.mk [] []) "dummy" none dummyImpl).1)
        "dummy" none dummyImpl2).1.module_dict) "dummy" = some (stampName dummyImpl2 "dummy") ∧
    countKey ((register ((register (RegistryState.mk [] []) "dummy" none dummyImpl).1)
        "dummy" none dummyImpl2).1.module_dict) "dummy" = 1 ∧
    countKey (([dummyImpl, dummyImpl2, dummyImpl].foldl
        (fun s i => (register s "dummy" none i).1) (RegistryState.mk [] [])).enum_members)
      (pyUpper "dummy") ≤ 1 := by
  have h := register_duplicate_tolerated (RegistryState.mk [] []) "dummy"
    dummyImpl dummyImpl2 (by decide) (by decide)
  exact ⟨h.1, h.2.1, h.2.2 [dummyImpl, dummyImpl2, dummyImpl]⟩

/-- Counterexample to C7 as stated: from a state satisfying the invariant
(one backend `"ab"`, enum member `AB = ab`), registering the name `"AB"`
finds `hasattr(Backend, 'AB')` already true, skips the enum extension, and
inserts the key `"AB"` into the registry — which then has no enum member
whose value is `"AB"`. -/
theorem register_invariant_cex :
    registryInvariant ((register (RegistryState.mk [] []) "ab" none dummyImpl).1) ∧
    ¬ registryInvariant
        ((register ((register (RegistryState.mk [] []) "ab" none dummyImpl).1)
          "AB" none dummyImpl2).1) := by
  constructor
  · decide
  · decide

/-- C7 amended: registration preserves the invariant — every key of the
registry mapping has a `Backend` enum member whose value is that key —
provided the chosen enum label (`enum_name`, defaulting to the uppercased
name), when it is already an enum member, carries the registered name as its
value (so that the skipped extension loses nothing). -/
theorem register_preserves_invariant (st : RegistryState) (name : String)
    (en : Option String) (cls : Impl)
    (hinv : registryInvariant st)
    (hename : ∀ v, alookup st.enum_members (en.getD (pyUpper name)) = some v → v = name) :
    registryInvariant (register st name en cls).1 := by
  intro k hk
  rw [register_dict, dictInsert_keys] at hk
  rw [register_enum]
  by_cases hd : (alookup st.module_dict name).isSome
  · rw [if_pos hd] at hk
    by_cases hs : (alookup st.enum_members (en.getD (pyUpper name))).isSome
    · rw [if_pos hs]
      exact hinv k hk
    · rw [if_neg hs, List.map_append]
      exact List.mem_append_left _ (hinv k hk)
  · rw [if_neg hd, List.mem_append, List.mem_singleton] at hk
    by_cases hs : (alookup st.enum_members (en.getD (pyUpper name))).isSome
    · rw [if_pos hs]
      rcases hk with hk | hk
      · exact hinv k hk
      · subst hk
        obtain ⟨v, hv⟩ := Option.isSome_iff_exists.mp hs
        have hvn := hename v hv
        subst hvn
        exact List.mem_map_of_mem Prod.snd (alookup_mem _ _ _ hv)
    · rw [if_neg hs, List.map_append]
      rcases hk with hk | hk
      · exact List.mem_append_left _ (hinv k hk)
      · subst hk
        apply List.mem_append_right
        simp

/-- Witness for the amended C7 from the empty registry. -/
theorem register_preserves_invariant_witness :
    registryInvariant ((register (RegistryState.mk [] []) "trt" none dummyImpl).1) :=
  register_preserves_invariant (RegistryState.mk [] []) "trt" none dummyImpl
    (by decide) (fun v h => Option.noConfusion h)

lemma stamped_register (st : RegistryState) (name : String) (en : Option String)
    (cls : Impl) (h : stamped st) : stamped (register st name en cls).1 := by
  intro p hp
  rw [register_dict] at hp
  rcases mem_dictInsert _ _ _ p hp with hp | hp
  · exact h p hp
  · subst hp
    rfl

lemma keys_register (st : RegistryState) (name : String) (en : Option String)
    (cls : Impl) (k : String) (h : k ∈ st.module_dict.map Prod.fst) :
    k ∈ (register st name en cls).1.module_dict.map Prod.fst := by
  rw [register_dict]
  exact mem_keys_dictInsert _ _ _ _ h

lemma stamped_applyRegs (r : RegistryState) (regs : List RegCall) (h : stamped r) :
    stamped (applyRegs r regs) := by
  induction regs generalizing r with
  | nil => exact h
  | cons c rest ih =>
    unfold applyRegs
    rw [List.foldl_cons]
    exact ih _ (stamped_register r c.rname c.renum c.rimpl h)

lemma keys_applyRegs (r : RegistryState) (regs : List RegCall) (k : String)
    (h : k ∈ r.module_dict.map Prod.fst) :
    k ∈ (applyRegs r regs).module_dict.map Prod.fst := by
  induction regs generalizing r with
  | nil => exact h
  | cons c rest ih =>
    unfold applyRegs
    rw [List.foldl_cons]
    exact ih _ (keys_register r c.rname c.renum c.rimpl k h)

lemma find_eq_of_imported (env : ModuleEnv) (st : SysState) (name : String)
    (him : ("dlicv.backend." ++ name) ∈ st.imported) :
    find env st name = Except.ok (st, alookup st.registry.module_dict name) := by
  unfold find moduleImport
  rw [if_pos him]

lemma find_eq_of_module (env : ModuleEnv) (st : SysState) (name : String)
    (regs : List RegCall) (him : ("dlicv.backend." ++ name) ∉ st.imported)
    (hregs : alookup env.modules ("dlicv.backend." ++ name) = some regs) :
    find env st name =
      Except.ok
        (SysState.mk (applyRegs st.registry regs)
          (st.imported ++ ["dlicv.backend." ++ name]),
        alookup (applyRegs st.registry regs).module_dict name) := by
  unfold find moduleImport
  rw [if_neg him, hregs]

/-- C8: for every backend name present in the registry, `find(name)` returns a
non-null implementation whose `backend_name` equals the queried name —
`register` stamps every stored class with the key it is stored under, imports
only add or overwrite stamped entries, and `find` then reads the entry back.
The third hypothesis keeps `find`'s unguarded conventional import from
raising: the module `dlicv.backend.<name>` is already imported or importable. -/
theorem find_registered (env : ModuleEnv) (st : SysState) (name : String)
    (hst : stamped st.registry)
    (hreg : name ∈ st.registry.module_dict.map Prod.fst)
    (hmod : ("dlicv.backend." ++ name) ∈ st.imported ∨
      (alookup env.modules ("dlicv.backend." ++ name)).isSome) :
    ∃ st2 impl, find env st name = Except.ok (st2, some impl) ∧
      Impl.backend_name impl = name := by
  by_cases him : ("dlicv.backend." ++ name) ∈ st.imported
  · obtain ⟨v, hv⟩ := Option.isSome_iff_exists.mp ((alookup_isSome _ _).mpr hreg)
    refine ⟨st, v, ?_, hst _ (alookup_mem _ _ _ hv)⟩
    rw [find_eq_of_imported env st name him, hv]
  · rcases hmod with hmod | hmod
    · exact absurd hmod him
    · obtain ⟨regs, hregs⟩ := Option.isSome_iff_exists.mp hmod
      have hkeys := keys_applyRegs st.registry regs name hreg
      obtain ⟨v, hv⟩ := Option.isSome_iff_exists.mp ((alookup_isSome _ _).mpr hkeys)
      refine ⟨SysState.mk (applyRegs st.registry regs)
          (st.imported ++ ["dlicv.backend." ++ name]), v, ?_,
        (stamped_applyRegs st.registry regs hst) _ (alookup_mem _ _ _ hv)⟩
      rw [find_eq_of_module env st name regs him hregs, hv]

/-- A registered TensorRT-like implementation used by the C8 witness. -/
def trtImpl : Impl := Impl.mk "tensorrt" (Except.ok true) (Except.ok "8.6.1")

/-- Witness for C8: a registry holding `"tensorrt"` with the conventional
module importable (registering nothing further). -/
theorem find_registered_witness :
    ∃ st2 impl,
      find (ModuleEnv.mk [("dlicv.backend.tensorrt", [])])
        (SysState.mk (RegistryState.mk [("tensorrt", trtImpl)] [("TENSORRT", "tensorrt")]) [])
        "tensorrt" = Except.ok (st2, some impl) ∧
      Impl.backend_name impl = "tensorrt" :=
  find_registered (ModuleEnv.mk [("dlicv.backend.tensorrt", [])])
    (SysState.mk (RegistryState.mk [("tensorrt", trtImpl)] [("TENSORRT", "tensorrt")]) [])
    "tensorrt" (by decide) (by decide) (Or.inr (by decide))

/-- C1 amended: for a name that was never registered, `find(name)` — and
`get_backend_manager(name)` — returns `None` without raising when the
conventionally-named module `dlicv.backend.<name>` is importable but registers
nothing; when no such module exists (and it was not imported earlier), the
unguarded `importlib.import_module` call raises `ModuleNotFoundError` instead
of returning `None`. -/
theorem find_unregistered (env : ModuleEnv) (st : SysState) (name : String)
    (hdict : alookup st.registry.module_dict name = none) :
    (alookup env.modules ("dlicv.backend." ++ name) = some [] →
      ∃ st2, find env st name = Except.ok (st2, none) ∧
        get_backend_manager env st (PyName.str name) = Except.ok (st2, none)) ∧
    (("dlicv.backend." ++ name) ∉ st.imported →
      alookup env.modules ("dlicv.backend." ++ name) = none →
      find env st name =
          Except.error (PyErr.moduleNotFoundError ("dlicv.backend." ++ name)) ∧
        get_backend_manager env st (PyName.str name) =
          Except.error (PyErr.moduleNotFoundError ("dlicv.backend." ++ name))) := by
  have hgbm : get_backend_manager env st (PyName.str name) = find env st name := rfl
  constructor
  · intro hempty
    by_cases him : ("dlicv.backend." ++ name) ∈ st.imported
    · refine ⟨st, ?_, ?_⟩
      · rw [find_eq_of_imported env st name him, hdict]
      · rw [hgbm, find_eq_of_imported env st name him, hdict]
    · refine ⟨SysState.mk (applyRegs st.registry [])
          (st.imported ++ ["dlicv.backend." ++ name]), ?_, ?_⟩
      · rw [find_eq_of_module env st name [] him hempty]
        unfold applyRegs
        rw [List.foldl_nil, hdict]
      · rw [hgbm, find_eq_of_module env st name [] him hempty]
        unfold applyRegs
        rw [List.foldl_nil, hdict]
  · intro him hmiss
    have hfind : find env st name =
        Except.error (PyErr.moduleNotFoundError ("dlicv.backend." ++ name)) := by
      unfold find moduleImport
      rw [if_neg him, hmiss]
    exact ⟨hfind, hgbm ▸ hfind⟩

/-- Witness for the amended C1: a module that is importable but registers
nothing yields `None` without raising; a missing module makes `find` raise. -/
theorem find_unregistered_witness :
    (∃ st2, find (ModuleEnv.mk [("dlicv.backend.emptymod", [])])
        (SysState.mk (RegistryState.mk [] []) []) "emptymod" = Except.ok (st2, none) ∧
      get_backend_manager (ModuleEnv.mk [("dlicv.backend.emptymod", [])])
        (SysState.mk (RegistryState.mk [] []) []) (PyName.str "emptymod") =
        Except.ok (st2, none)) ∧
    find (ModuleEnv.mk [("dlicv.backend.emptymod", [])])
        (SysState.mk (RegistryState.mk [] []) []) "ghost" =
      Except.error (PyErr.moduleNotFoundError "dlicv.backend.ghost") ∧
    get_backend_manager (ModuleEnv.mk [("dlicv.backend.emptymod", [])])
        (SysState.mk (RegistryState.mk [] []) []) (PyName.str "ghost") =
      Except.error (PyErr.moduleNotFoundError "dlicv.backend.ghost") :=
  ⟨(find_unregistered (ModuleEnv.mk [("dlicv.backend.emptymod", [])])
      (SysState.mk (RegistryState.mk [] []) []) "emptymod" rfl).1 rfl,
   (find_unregistered (ModuleEnv.mk [("dlicv.backend.emptymod", [])])
      (SysState.mk (RegistryState.mk [] []) []) "ghost" rfl).2
      (List.not_mem_nil _) rfl⟩

/-- Counterexample to C1 as stated: in an environment with no module
`dlicv.backend.never_registered`, `find('never_registered')` — and hence
`get_backend_manager('never_registered')` — raises `ModuleNotFoundError`
rather than returning `None`. -/
theorem find_missing_module_raises :
    find (ModuleEnv.mk []) (SysState.mk (RegistryState.mk [] []) [])
        "never_registered" =
      Except.error (PyErr.moduleNotFoundError "dlicv.backend.never_registered") ∧
    get_backend_manager (ModuleEnv.mk []) (SysState.mk (RegistryState.mk [] []) [])
        (PyName.str "never_registered") =
      Except.error (PyErr.moduleNotFoundError "dlicv.backend.never_registered") :=
  ⟨rfl, rfl⟩

/-- The file system visible to `build_backend`: the home directory used by
`os.path.expanduser` and the set of paths that exist as regular files. -/
structure FileSystem where
  home : String
  files : List String

/-- Models `os.path.expanduser` for the `~` shorthand: a lone `~` or a `~/`
prefix is replaced by the home directory (named-user forms like `~bob` are
outside the spec's artifact contract and left untouched, like any other
path). -/
def expanduser (home : String) (path : String) : String :=
  if path = "~" then home
  else if String.startsWith path "~/" then home ++ String.drop path 1
  else path

/-- Models `os.path.isfile`. -/
def isfile (fs : FileSystem) (p : String) : Bool :=
  fs.files.contains p

/-- The backend-specific wrapper objects `build_backend` constructs; their
internals are external collaborators (`tensorrt/backend.py`,
`ascend/backend.py` are delegations to the runtime libraries), so only the
constructor arguments are modelled. -/
inductive BackendObj where
  | TRTBackend (engine_file : String)
  | AscendBackend (model_file : String) (device_id : Int)
deriving DecidableEq, Repr

/-- Python `seq[i]`: raises `IndexError` when out of range. -/
def pyGetItem (xs : List String) (i : Nat) : Except PyErr String :=
  match xs.get? i with
  | some x => Except.ok x
  | none => Except.error PyErr.indexError

/-- TensorRTManager.build_backend (tensorrt/backend_manager.py lines 10-31):
`backend_file = osp.expanduser(backend_files[0])`; raise
`FileNotFoundError(f'`{backend_file}` not found.')` unless
`osp.isfile(backend_file)`; return `TRTBackend(engine_file=backend_file)`.
The optional `input_names`/`output_names` (Python default `None`) and the
`device_type`/`device_id` arguments are accepted and unused. -/
def TensorRTManager.build_backend (fs : FileSystem) (backend_files : List String)
    (device_type : String) (device_id : Int)
    (input_names : Option (List String)) (output_names : Option (List String)) :
    Except PyErr BackendObj :=
  match pyGetItem backend_files 0 with
  | Except.error e => Except.error e
  | Except.ok f0 =>
    let backend_file := expanduser fs.home f0
    if !(isfile fs backend_file) then
      Except.error (PyErr.fileNotFoundError ("`" ++ backend_file ++ "` not found."))
    else
      Except.ok (BackendObj.TRTBackend backend_file)

/-- TensorRTManager.is_available (lines 33-42):
`importlib.util.find_spec('tensorrt') is not None`. -/
def TensorRTManager.is_available (probe : String → Bool) (with_custom_ops : Bool) : Bool :=
  probe "tensorrt"

/-- AscendManager.build_backend (ascend/backend_manager.py lines 10-33): same
file check, then `AscendBackend(model_file=backend_file,
device_id=device_id)`.  (This manager names its second parameter `device`.) -/
def AscendManager.build_backend (fs : FileSystem) (backend_files : List String)
    (device : String) (device_id : Int)
    (input_names : Option (List String)) (output_names : Option (List String)) :
    Except PyErr BackendObj :=
  match pyGetItem backend_files 0 with
  | Except.error e => Except.error e
  | Except.ok f0 =>
    let backend_file := expanduser fs.home f0
    if !(isfile fs backend_file) then
      Except.error (PyErr.fileNotFoundError ("`" ++ backend_file ++ "` not found."))
    else
      Except.ok (BackendObj.AscendBackend backend_file device_id)

/-- AscendManager.is_available (lines 35-45): both `aclruntime` and
`ais_bench` must be importable. -/
def AscendManager.is_available (probe : String → Bool) (with_custom_ops : Bool) : Bool :=
  probe "aclruntime" && probe "ais_bench"

/-- The probes `get_version` delegates to: `importlib.util.find_spec` (does a
package resolve) and `pkg_resources.get_distribution(...).version` (which may
raise). -/
structure PyEnv where
  find_spec : String → Bool
  distribution_version : String → Except PyErr String

/-- TensorRTManager.get_version (tensorrt/backend_manager.py lines 44-54):
`'None'` when not available; otherwise
`pkg_resources.get_distribution('tensorrt').version` inside a
`try/except Exception` that returns `'None'`. -/
def TensorRTManager.get_version (env : PyEnv) : Except PyErr String :=
  if !(TensorRTManager.is_available env.find_spec false) then Except.ok "None"
  else tryExcept (env.distribution_version "tensorrt") (fun _ => Except.ok "None")

/-- AscendManager.get_version (ascend/backend_manager.py lines 47-57): as for
TensorRT but reading the `ais_bench` distribution. -/
def AscendManager.get_version (env : PyEnv) : Except PyErr String :=
  if !(AscendManager.is_available env.find_spec false) then Except.ok "None"
  else tryExcept (env.distribution_version "ais_bench") (fun _ => Except.ok "None")

/-- C4: for both concrete backend implementations, `build_backend` on a
non-empty file list raises `FileNotFoundError` exactly when the first element,
after home-directory expansion, is not a file; otherwise it returns the
backend-specific wrapper.  The result never depends on `input_names` /
`output_names`, so their absence (`none`, Python's default) never raises. -/
theorem build_backend_checks_first_file (fs : FileSystem) (f : String)
    (rest : List String) (device_type device : String) (device_id : Int)
    (input_names output_names : Option (List String)) :
    (TensorRTManager.build_backend fs (f :: rest) device_type device_id
        input_names output_names =
      if isfile fs (expanduser fs.home f) then
        Except.ok (BackendObj.TRTBackend (expanduser fs.home f))
      else
        Except.error
          (PyErr.fileNotFoundError ("`" ++ expanduser fs.home f ++ "` not found."))) ∧
    (AscendManager.build_backend fs (f :: rest) device device_id
        input_names output_names =
      if isfile fs (expanduser fs.home f) then
        Except.ok (BackendObj.AscendBackend (expanduser fs.home f) device_id)
      else
        Except.error
          (PyErr.fileNotFoundError ("`" ++ expanduser fs.home f ++ "` not found."))) := by
  constructor
  · unfold TensorRTManager.build_backend pyGetItem
    by_cases h : isfile fs (expanduser fs.home f)
    · simp [h]
    · simp [h]
  · unfold AscendManager.build_backend pyGetItem
    by_cases h : isfile fs (expanduser fs.home f)
    · simp [h]
    · simp [h]

/-- C9: calling `build_backend` with an empty `backend_files` raises
`IndexError` from `backend_files[0]` — for both implementations and whatever
the file system holds, so no file-existence check happens and no
`FileNotFoundError` is produced. -/
theorem build_backend_empty_files (fs : FileSystem) (device_type device : String)
    (device_id : Int) (input_names output_names : Option (List String)) :
    TensorRTManager.build_backend fs [] device_type device_id
        input_names output_names = Except.error PyErr.indexError ∧
    AscendManager.build_backend fs [] device device_id
        input_names output_names = Except.error PyErr.indexError :=
  ⟨rfl, rfl⟩

/-- C5: for both concrete backend implementations, `get_version()` never
raises (the result is always `Except.ok`), returns the literal string
`'None'` whenever `is_available()` is false, and returns `'None'` instead of
propagating any failure of the version lookup. -/
theorem get_version_never_raises (env : PyEnv) :
    (∃ s, TensorRTManager.get_version env = Except.ok s) ∧
    (TensorRTManager.is_available env.find_spec false = false →
      TensorRTManager.get_version env = Except.ok "None") ∧
    (∀ e, env.distribution_version "tensorrt" = Except.error e →
      TensorRTManager.get_version env = Except.ok "None") ∧
    (∃ s, AscendManager.get_version env = Except.ok s) ∧
    (AscendManager.is_available env.find_spec false = false →
      AscendManager.get_version env = Except.ok "None") ∧
    (∀ e, env.distribution_version "ais_bench" = Except.error e →
      AscendManager.get_version env = Except.ok "None") := by
  refine ⟨?_, ?_, ?_, ?_, ?_, ?_⟩
  · unfold TensorRTManager.get_version
    by_cases h : TensorRTManager.is_available env.find_spec false
    · rw [h]
      rcases hd : env.distribution_version "tensorrt" with e | s
      · exact ⟨"None", by simp [tryExcept, hd]⟩
      · exact ⟨s, by simp [tryExcept, hd]⟩
    · rw [Bool.not_eq_true] at h
      rw [h]
      exact ⟨"None", rfl⟩
  · intro h
    unfold TensorRTManager.get_version
    rw [h]
    rfl
  · intro e he
    unfold TensorRTManager.get_version
    by_cases h : TensorRTManager.is_available env.find_spec false
    · rw [h]
      simp [tryExcept, he]
    · rw [Bool.not_eq_true] at h
      rw [h]
      rfl
  · unfold AscendManager.get_version
    by_cases h : AscendManager.is_available env.find_spec false
    · rw [h]
      rcases hd : env.distribution_version "ais_bench" with e | s
      · exact ⟨"None", by simp [tryExcept, hd]⟩
      · exact ⟨s, by simp [tryExcept, hd]⟩
    · rw [Bool.not_eq_true] at h
      rw [h]
      exact ⟨"None", rfl⟩
  · intro h
    unfold AscendManager.get_version
    rw [h]
    rfl
  · intro e he
    unfold AscendManager.get_version
    by_cases h : AscendManager.is_available env.find_spec false
    · rw [h]
      simp [tryExcept, he]
    · rw [Bool.not_eq_true] at h
      rw [h]
      rfl

/-- Environment with no runtime packages installed. -/
def envNoPackages : PyEnv :=
  PyEnv.mk (fun _ => false) (fun _ => Except.error (PyErr.otherError "no distribution"))

/-- Environment where the packages resolve but the version lookup raises. -/
def envLookupFails : PyEnv :=
  PyEnv.mk (fun _ => true) (fun _ => Except.error (PyErr.otherError "metadata broken"))

/-- Witness for C5: unavailable and lookup-failure environments both yield
`'None'` for both managers. -/
theorem get_version_never_raises_witness :
    TensorRTManager.get_version envNoPackages = Except.ok "None" ∧
    AscendManager.get_version envNoPackages = Except.ok "None" ∧
    TensorRTManager.get_version envLookupFails = Except.ok "None" ∧
    AscendManager.get_version envLookupFails = Except.ok "None" :=
  ⟨(get_version_never_raises envNoPackages).2.1 rfl,
   (get_version_never_raises envNoPackages).2.2.2.2.1 rfl,
   (get_version_never_raises envLookupFails).2.2.1 (PyErr.otherError "metadata broken") rfl,
   (get_version_never_raises envLookupFails).2.2.2.2.2 (PyErr.otherError "metadata broken") rfl⟩
